import Mathlib

/-!
Shallow embedding of the webhook-driven meeting lifecycle of this
repository: the webhook event dispatcher (src/app/api/webhook/route.ts),
the transcript-processing pipeline (src/inngest/functions.ts), the voice
overlay rate limiter (src/modules/call/ui/components/call-active.tsx) and
the speech endpoint (src/app/api/ai/process-speech/route.ts).

External managed services (the video platform SDK signature check,
JSON.parse, fetch, JSONL.parse, the Gemini model call) are passed in as
function parameters; the database is a list-backed store with drizzle's
select / update-where / returning modelled as filter / map / filter-map.
JavaScript falsiness of optional strings (undefined or the empty string)
is modelled by the predicate `falsy`.
-/

namespace Mini

/-- Meeting status values, as enumerated by the guard conditions of the
webhook handlers. -/
inductive Status where
  | upcoming
  | active
  | processing
  | completed
  | cancelled
deriving DecidableEq, Repr

/-- A row of the meetings table; optional columns are `Option`.
`startedAt` / `endedAt` hold the clock value passed to the handler
(models `new Date()`). -/
structure Meeting where
  id : String
  status : Status
  agentId : String
  transcriptUrl : Option String := none
  recordingUrl : Option String := none
  summary : Option String := none
  startedAt : Option Nat := none
  endedAt : Option Nat := none
deriving DecidableEq, Repr

/-- A row of the agents table. -/
structure Agent where
  id : String
  name : String
  instructions : String := ""
deriving DecidableEq, Repr

/-- A row of the user table (only the fields the pipeline reads). -/
structure User where
  id : String
  name : String
deriving DecidableEq, Repr

/-- The relational store the handlers and the pipeline mutate. -/
structure Store where
  meetings : List Meeting
  agents : List Agent
  users : List User
deriving DecidableEq, Repr

/-- JavaScript falsiness of an optional string: absent (`undefined` /
`null`) or empty. Models checks such as `!signature`, `!meetingId`. -/
def falsy : Option String → Bool
  | none => true
  | some s => s = ""

/-- Splitting a character list at every occurrence of a separator
character: the pieces of the JS `String.split` with a one-character
separator, over the string's characters. -/
def splitChars (sep : Char) : List Char → List (List Char)
  | [] => [[]]
  | c :: rest =>
    let r := splitChars sep rest
    if c = sep then [] :: r
    else
      match r with
      | [] => [[c]]
      | h :: t => (c :: h) :: t

/-- Models `call_cid.split(":")[1]`: the element at index 1 of the
split, `none` when the split has fewer than two pieces. -/
def splitCid (cid : String) : Option String :=
  ((splitChars ':' cid.data).map fun cs => String.mk cs).get? 1

/-- The untyped webhook payload after JSON parsing: the discriminator
`etype` models `payload.type`; the remaining fields model the properties
each branch reads after its cast (`event.call.custom?.meetingId`,
`event.call_cid`, `event.call_transcription.url`,
`event.call_recording.url`). -/
structure Payload where
  etype : String
  customMeetingId : Option String := none
  callCid : String := ""
  transcriptionUrl : String := ""
  recordingUrl : String := ""
deriving DecidableEq, Repr

/-- An inbound webhook request: the two headers (absent = `none`) and the
raw body text. -/
structure Request where
  signature : Option String
  apiKey : Option String
  body : String
deriving DecidableEq, Repr

/-- Response body: the uniform success acknowledgement or an error
object with its message string. -/
inductive RespBody where
  | ok
  | err (msg : String)
deriving DecidableEq, Repr

/-- An HTTP response: status code and body. -/
structure Response where
  status : Nat
  body : RespBody
deriving DecidableEq, Repr

/-- A background job message sent with `inngest.send`. -/
structure Job where
  name : String
  meetingId : String
  transcriptUrl : Option String
deriving DecidableEq, Repr

/-- The observable outcome of one webhook invocation: the response, the
store after the handler ran, and the jobs sent. -/
structure WebhookResult where
  resp : Response
  store : Store
  jobs : List Job
deriving DecidableEq, Repr

/-- The select condition of the session-started handler:
`and(eq(meetings.id, meetingId), not(eq(status,"completed")),
not(eq(status,"active")), not(eq(status,"cancelled")),
not(eq(status,"processing")))`. -/
def sessionStartedGuard (meetingId : String) (m : Meeting) : Bool :=
  m.id = meetingId ∧ m.status ≠ Status.completed ∧ m.status ≠ Status.active ∧
    m.status ≠ Status.cancelled ∧ m.status ≠ Status.processing

/-- The `call.session_started` branch: guarded select, then update to
`active` recording the start time, then agent lookup (note the lookup
happens after the update, as in the source). -/
def handleSessionStarted (now : Nat) (p : Payload) (st : Store) : WebhookResult :=
  if falsy p.customMeetingId then
    ⟨⟨400, RespBody.err "Missing meetingId"⟩, st, []⟩
  else
    let meetingId := p.customMeetingId.getD ""
    match (st.meetings.filter (sessionStartedGuard meetingId)).head? with
    | none => ⟨⟨404, RespBody.err "Meeting not found"⟩, st, []⟩
    | some existingMeeting =>
      let st1 : Store :=
        { st with
          meetings := st.meetings.map fun m =>
            if m.id = existingMeeting.id then
              { m with status := Status.active, startedAt := some now }
            else m }
      match (st.agents.filter fun a => a.id = existingMeeting.agentId).head? with
      | none => ⟨⟨404, RespBody.err "Agent not found"⟩, st1, []⟩
      | some _existingAgent => ⟨⟨200, RespBody.ok⟩, st1, []⟩

/-- The `call.session_participant_left` branch: extracts the meeting id
from `call_cid`, then asks the call-transport service to end the call
(an external effect; no store change). -/
def handleParticipantLeft (p : Payload) (st : Store) : WebhookResult :=
  if falsy (splitCid p.callCid) then
    ⟨⟨400, RespBody.err "Missing meetingId "⟩, st, []⟩
  else
    ⟨⟨200, RespBody.ok⟩, st, []⟩

/-- The `call.session_ended` branch: conditional update to `processing`,
qualified by `status = "active"`. -/
def handleSessionEnded (now : Nat) (p : Payload) (st : Store) : WebhookResult :=
  if falsy p.customMeetingId then
    ⟨⟨400, RespBody.err "Missing meetingId"⟩, st, []⟩
  else
    let meetingId := p.customMeetingId.getD ""
    let st1 : Store :=
      { st with
        meetings := st.meetings.map fun m =>
          if m.id = meetingId ∧ m.status = Status.active then
            { m with status := Status.processing, endedAt := some now }
          else m }
    ⟨⟨200, RespBody.ok⟩, st1, []⟩

/-- The `call.transcription_ready` branch: update `transcriptUrl` where
the id matches, take the first returned row; if none, report the error
(status 400 in the source); otherwise send the processing job built from
the returned row. -/
def handleTranscriptionReady (p : Payload) (st : Store) : WebhookResult :=
  let meetingId := splitCid p.callCid
  let touched := fun m : Meeting => some m.id = meetingId
  let st1 : Store :=
    { st with
      meetings := st.meetings.map fun m =>
        if touched m then { m with transcriptUrl := some p.transcriptionUrl } else m }
  match ((st.meetings.filter fun m => touched m).map
      fun m => { m with transcriptUrl := some p.transcriptionUrl }).head? with
  | none => ⟨⟨400, RespBody.err "Meeting not found "⟩, st1, []⟩
  | some updateMeeting =>
    ⟨⟨200, RespBody.ok⟩, st1,
      [⟨"meetings/processing", updateMeeting.id, updateMeeting.transcriptUrl⟩]⟩

/-- The `call.recording_ready` branch: update `recordingUrl` where the id
matches; always acknowledges. -/
def handleRecordingReady (p : Payload) (st : Store) : WebhookResult :=
  let meetingId := splitCid p.callCid
  let st1 : Store :=
    { st with
      meetings := st.meetings.map fun m =>
        if some m.id = meetingId then { m with recordingUrl := some p.recordingUrl } else m }
  ⟨⟨200, RespBody.ok⟩, st1, []⟩

/-- Dispatch on `payload.type`; an unrecognized kind falls through to the
uniform acknowledgement. -/
def dispatch (now : Nat) (p : Payload) (st : Store) : WebhookResult :=
  if p.etype = "call.session_started" then handleSessionStarted now p st
  else if p.etype = "call.session_participant_left" then handleParticipantLeft p st
  else if p.etype = "call.session_ended" then handleSessionEnded now p st
  else if p.etype = "call.transcription_ready" then handleTranscriptionReady p st
  else if p.etype = "call.recording_ready" then handleRecordingReady p st
  else ⟨⟨200, RespBody.ok⟩, st, []⟩

/-- The webhook endpoint `POST`: header presence check, signature
verification (`verify` models the SDK routine over the raw body), JSON
parsing (`parse` models `JSON.parse`, `none` = exception), then
dispatch. -/
def POST (verify : String → String → Bool) (parse : String → Option Payload)
    (now : Nat) (req : Request) (st : Store) : WebhookResult :=
  if falsy req.signature || falsy req.apiKey then
    ⟨⟨400, RespBody.err "Missing signature or API key"⟩, st, []⟩
  else if ¬ verify req.body (req.signature.getD "") then
    ⟨⟨401, RespBody.err "Invalid signature"⟩, st, []⟩
  else
    match parse req.body with
    | none => ⟨⟨400, RespBody.err "Invalid JSON "⟩, st, []⟩
    | some payload => dispatch now payload st

/-- One parsed line of the transcript file (the fields the pipeline
reads; utterance text stands for the remaining utterance fields). -/
structure StreamTranscriptItem where
  speaker_id : String
  text : String
deriving DecidableEq, Repr

/-- A resolved speaker, unified to id and display name (the fields the
annotation step reads from a user or agent row). -/
structure Speaker where
  id : String
  name : String
deriving DecidableEq, Repr

/-- The nested `user` object attached to an annotated item. -/
structure SpeakerTag where
  name : String
deriving DecidableEq, Repr

/-- A transcript item after speaker annotation: the spread of the item
plus the attached `user.name`. -/
structure AnnotatedItem where
  speaker_id : String
  text : String
  user : SpeakerTag
deriving DecidableEq, Repr

/-- The speaker list of pipeline step 3: the distinct speaker ids of the
transcript, the user rows and agent rows matching them (`inArray`), each
projected to id and name, users first. -/
def resolveSpeakers (st : Store) (transcript : List StreamTranscriptItem) :
    List Speaker :=
  let speakerIds := (transcript.map fun item => item.speaker_id).dedup
  let userSpeakers := (st.users.filter fun u => u.id ∈ speakerIds).map
    fun u => Speaker.mk u.id u.name
  let agentSpeakers := (st.agents.filter fun a => a.id ∈ speakerIds).map
    fun a => Speaker.mk a.id a.name
  userSpeakers ++ agentSpeakers

/-- The per-item body of step 3's final map: attach the first matching
speaker's name, the literal "Unknown" when none matches. -/
def annotateItem (speakers : List Speaker) (item : StreamTranscriptItem) :
    AnnotatedItem :=
  match speakers.find? fun speaker => speaker.id = item.speaker_id with
  | none => ⟨item.speaker_id, item.text, ⟨"Unknown"⟩⟩
  | some speaker => ⟨item.speaker_id, item.text, ⟨speaker.name⟩⟩

/-- Pipeline step 3 (`add-speakers`). -/
def addSpeakers (st : Store) (transcript : List StreamTranscriptItem) :
    List AnnotatedItem :=
  transcript.map (annotateItem (resolveSpeakers st transcript))

/-- JavaScript `a || fallback` over an optional string: the fallback
replaces an absent or empty value. -/
def orFallback (a : Option String) (fallback : String) : String :=
  match a with
  | none => fallback
  | some s => if s = "" then fallback else s

/-- The outcome of one Gemini `generateContent` call: either the call
throws, or it returns a response whose `text` property may be absent or
empty. -/
inductive AiOutcome where
  | threw (errorStr : String)
  | returned (text : Option String)
deriving DecidableEq, Repr

/-- The summarization prompt: the fixed system prompt (its text is
opaque to every property here, abbreviated to its head) concatenated
with the transcript. -/
def geminiPrompt (transcript : String) : String :=
  "You are an expert summarizer." ++ "\n\nTranscript to summarize:\n" ++ transcript

/-- `summarizeWithGemini`: calls the model (`ai` models the hosted
call); on a thrown error it rethrows a distinct summarization error; on
a returned response it yields `result.text || "Summary generation
failed"`. -/
def summarizeWithGemini (ai : String → AiOutcome) (transcript : String) :
    Except String String :=
  match ai (geminiPrompt transcript) with
  | AiOutcome.threw _ => Except.error "Failed to generate summary with Gemini"
  | AiOutcome.returned t => Except.ok (orFallback t "Summary generation failed")

/-- The event data consumed by the background job. -/
structure JobData where
  meetingId : String
  transcriptUrl : Option String
deriving DecidableEq, Repr

/-- Serialization of the annotated transcript handed to the summarizer
(models `JSON.stringify`; the exact textual format is opaque to every
property here). -/
def stringifyAnnotated (items : List AnnotatedItem) : String :=
  String.join (items.map fun item =>
    "[" ++ item.speaker_id ++ "|" ++ item.user.name ++ "|" ++ item.text ++ "]")

/-- The `meetings/processing` job: fetch the transcript (`fetch` models
the HTTP get of `event.data.transcriptUrl`, `Except.error` = step
failure), parse it (`parseJSONL` models `JSONL.parse`, `Except.error` =
malformed input), annotate speakers, summarize, and persist summary and
`completed` status keyed by the meeting id. A step failure aborts the
run and the store is untouched. -/
def meetingsProcessing (fetch : Option String → Except String String)
    (parseJSONL : String → Except String (List StreamTranscriptItem))
    (ai : String → AiOutcome) (eventData : JobData) (st : Store) :
    Except String Store := do
  let response ← fetch eventData.transcriptUrl
  let transcript ← parseJSONL response
  let transcirptWithSpeakers := addSpeakers st transcript
  let summary ← summarizeWithGemini ai (stringifyAnnotated transcirptWithSpeakers)
  pure
    { st with
      meetings := st.meetings.map fun m =>
        if m.id = eventData.meetingId then
          { m with summary := some summary, status := Status.completed }
        else m }

/-- Client state of the voice overlay: the rate-limit clock (`lastRequestTime`
ref) and the displayed `aiResponse`. -/
structure OverlayState where
  lastRequestTime : Nat
  aiResponse : String
deriving DecidableEq, Repr

/-- 3 seconds between requests. -/
def MIN_REQUEST_INTERVAL : Nat := 3000

/-- The outcome of the overlay's fetch of the speech endpoint: the fetch
threw, or returned a non-ok response with its status and error payload,
or returned ok with the AI reply. -/
inductive OverlayFetch where
  | threw
  | errorResp (status : Nat) (error : String) (details : Option String)
  | okResp (response : String)
deriving DecidableEq, Repr

/-- Substring test used for `errorData.error?.includes("quota")`. -/
def includesSub (s pat : String) : Bool :=
  (s.splitOn pat).length ≠ 1

/-- `processWithFreeAI`: drop the request with a rounded-up wait notice
when under 3 seconds have passed since the last forwarded request
(leaving the clock untouched), otherwise advance the clock and forward
to the endpoint, displaying the reply or a branch-specific error.
Returns the new state and whether a network call was made. -/
def processWithFreeAI (doFetch : String → OverlayFetch) (now : Nat)
    (text : String) (st : OverlayState) : OverlayState × Bool :=
  let timeSinceLastRequest := now - st.lastRequestTime
  if timeSinceLastRequest < MIN_REQUEST_INTERVAL then
    let waitTime := (MIN_REQUEST_INTERVAL - timeSinceLastRequest + 999) / 1000
    ({ st with aiResponse := "Please wait " ++ toString waitTime ++ " seconds..." },
      false)
  else
    let st1 := { st with lastRequestTime := now }
    match doFetch text with
    | OverlayFetch.threw =>
      ({ st1 with aiResponse := "Error: Failed to connect to AI service" }, true)
    | OverlayFetch.errorResp status error details =>
      if status = 429 ∨ includesSub error "quota" then
        ({ st1 with aiResponse :=
            "Quota limit reached. Please wait a moment before trying again." }, true)
      else
        ({ st1 with aiResponse :=
            "Error: " ++ orFallback details (orFallback (some error)
              "Failed to get AI response") }, true)
    | OverlayFetch.okResp response =>
      ({ st1 with aiResponse := response }, true)

/-- Body of a speech-endpoint response: success object or error object. -/
inductive SpeechBody where
  | ok (response : String)
  | err (error : String) (details : Option String)
deriving DecidableEq, Repr

/-- A speech-endpoint HTTP response. -/
structure SpeechResponse where
  status : Nat
  body : SpeechBody
deriving DecidableEq, Repr

/-- The conversational prompt of the speech endpoint (system context
abbreviated to its head; opaque to every property here). -/
def speechPrompt (text : String) : String :=
  "You are a helpful AI assistant in a video call." ++ "\n\nUser said: \"" ++ text
    ++ "\"\n\nYour response:"

/-- The catch branch of the speech endpoint: a quota indicator in the
error string yields 429, anything else 500. -/
def speechCatch (errorStr : String) : SpeechResponse :=
  if includesSub errorStr "quota" ∨ includesSub errorStr "RESOURCE_EXHAUSTED" then
    ⟨429, SpeechBody.err
      "API quota exceeded. Please check your Gemini API key at https://aistudio.google.com/app/apikey or wait a moment and try again."
      (some "Quota limit reached")⟩
  else
    ⟨500, SpeechBody.err "Failed to process with AI" (some errorStr)⟩

/-- The `POST /api/ai/process-speech` endpoint: missing API key is a
distinct 500 checked first; `bodyText` models `(await req.json()).text`
(`Except.error` = the read threw, caught by the catch branch); falsy
text is 400; otherwise one AI call whose thrown error goes to the catch
branch and whose returned text is substituted by the literal fallback
when absent or empty. -/
def processSpeechPOST (apiKeyConfigured : Bool)
    (bodyText : Except String (Option String)) (ai : String → AiOutcome) :
    SpeechResponse :=
  if ¬ apiKeyConfigured then
    ⟨500, SpeechBody.err
      "AI service not configured. Please set GEMINI_API_KEY in environment variables."
      none⟩
  else
    match bodyText with
    | Except.error e => speechCatch e
    | Except.ok text =>
      if falsy text then
        ⟨400, SpeechBody.err "No text provided" none⟩
      else
        match ai (speechPrompt (text.getD "")) with
        | AiOutcome.threw e => speechCatch e
        | AiOutcome.returned t =>
          ⟨200, SpeechBody.ok (orFallback t "Sorry, I couldn\x27t process that.")⟩

/-- One forward step of the meeting state machine as the webhook
handlers realize it: unchanged, or upcoming to active, or active to
processing. -/
def forwardStep (a b : Status) : Bool :=
  a = b ∨ (a = Status.upcoming ∧ b = Status.active) ∨
    (a = Status.active ∧ b = Status.processing)

/-- The response-status map as the spec states it for the webhook
endpoint, amended where the code departs from it: 400 for missing
signature or API key, a missing meeting id or malformed JSON; 401 for
an invalid signature; 404 when session-started's guarded meeting lookup
or its agent lookup comes up empty; 400 (not 404) when
transcription-ready's update matches no row; 200 otherwise — in
particular session-ended and recording-ready acknowledge with 200 even
when no row matches their conditional updates. -/
def specStatusMap (verify : String → String → Bool)
    (parse : String → Option Payload) (req : Request) (st : Store) : Nat :=
  if falsy req.signature || falsy req.apiKey then 400
  else if ¬ verify req.body (req.signature.getD "") then 401
  else
    match parse req.body with
    | none => 400
    | some p =>
      if p.etype = "call.session_started" then
        if falsy p.customMeetingId then 400
        else
          match (st.meetings.filter
              (sessionStartedGuard (p.customMeetingId.getD ""))).head? with
          | none => 404
          | some existingMeeting =>
            match (st.agents.filter fun a => a.id = existingMeeting.agentId).head? with
            | none => 404
            | some _ => 200
      else if p.etype = "call.session_participant_left" then
        if falsy (splitCid p.callCid) then 400 else 200
      else if p.etype = "call.session_ended" then
        if falsy p.customMeetingId then 400 else 200
      else if p.etype = "call.transcription_ready" then
        if (st.meetings.filter fun m => some m.id = splitCid p.callCid) = [] then 400
        else 200
      else 200

/-- Pairing a list with its image under a map, pointwise. -/
theorem zip_map_all {α : Type} (l : List α) (f : α → α) (p : α × α → Bool)
    (h : ∀ x ∈ l, p (x, f x) = true) : ((l.zip (l.map f)).all p) = true := by
  induction l with
  | nil => rfl
  | cons a t ih =>
    simp only [List.map_cons, List.zip_cons_cons, List.all_cons, Bool.and_eq_true]
    exact ⟨h a (List.mem_cons_self a t), ih fun x hx => h x (List.mem_cons_of_mem a hx)⟩

/-- Zipping a list with its image under a map is mapping to pairs. -/
theorem zip_with_map_self {α β : Type} (l : List α) (f : α → β) :
    l.zip (l.map f) = l.map fun a => (a, f a) := by
  induction l with
  | nil => rfl
  | cons a t ih => simp [ih]

/-- Pairing a list with itself, pointwise. -/
theorem zip_self_all {α : Type} (l : List α) (p : α × α → Bool)
    (h : ∀ x ∈ l, p (x, x) = true) : ((l.zip l).all p) = true := by
  induction l with
  | nil => rfl
  | cons a t ih =>
    simp only [List.zip_cons_cons, List.all_cons, Bool.and_eq_true]
    exact ⟨h a (List.mem_cons_self a t), ih fun x hx => h x (List.mem_cons_of_mem a hx)⟩

/-- The first row a filter returns belongs to the list and satisfies the
filter condition. -/
theorem head?_filter_some {α : Type} {l : List α} {p : α → Bool} {a : α}
    (h : (l.filter p).head? = some a) : a ∈ l ∧ p a = true :=
  List.mem_filter.mp (List.mem_of_mem_head? h)

/-- A guarded row-wise update touches no row when no row satisfies the
condition. -/
theorem map_ite_id {α : Type} {l : List α} {p : α → Prop} [DecidablePred p]
    {f : α → α} (h : ∀ a ∈ l, ¬ p a) : (l.map fun a => if p a then f a else a) = l := by
  induction l with
  | nil => rfl
  | cons a t ih =>
    simp only [List.map_cons, if_neg (h a (List.mem_cons_self a t))]
    rw [ih fun x hx => h x (List.mem_cons_of_mem a hx)]

/-- **C6**: a webhook request with an absent (or empty, hence falsy)
signature or API-key header is answered 400, and a request whose
signature fails verification is answered 401; both responses leave the
store unchanged and send no job, and neither depends on the JSON parser
(the handler short-circuits before any payload parsing or dispatch). -/
theorem webhook_auth_short_circuit (verify : String → String → Bool)
    (parse : String → Option Payload) (now : Nat) (req : Request) (st : Store) :
    ((falsy req.signature || falsy req.apiKey) = true →
      POST verify parse now req st =
        ⟨⟨400, RespBody.err "Missing signature or API key"⟩, st, []⟩) ∧
    ((falsy req.signature || falsy req.apiKey) = false →
      verify req.body (req.signature.getD "") = false →
      POST verify parse now req st =
        ⟨⟨401, RespBody.err "Invalid signature"⟩, st, []⟩) := by
  constructor
  · intro h
    simp [POST, h]
  · intro h hv
    simp [POST, h, hv]

/-- Witness for C6 at concrete requests: an absent signature header
gives 400 and a failing verification gives 401, each leaving the empty
store untouched. -/
theorem webhook_auth_short_circuit_witness :
    POST (fun _ _ => true) (fun _ => none) 0 ⟨none, some "k", "b"⟩ ⟨[], [], []⟩ =
      ⟨⟨400, RespBody.err "Missing signature or API key"⟩, ⟨[], [], []⟩, []⟩ ∧
    POST (fun _ _ => false) (fun _ => none) 0 ⟨some "s", some "k", "b"⟩ ⟨[], [], []⟩ =
      ⟨⟨401, RespBody.err "Invalid signature"⟩, ⟨[], [], []⟩, []⟩ :=
  ⟨(webhook_auth_short_circuit (fun _ _ => true) (fun _ => none) 0
      ⟨none, some "k", "b"⟩ ⟨[], [], []⟩).1 (by decide),
   (webhook_auth_short_circuit (fun _ _ => false) (fun _ => none) 0
      ⟨some "s", some "k", "b"⟩ ⟨[], [], []⟩).2 (by decide) rfl⟩

/-- **C9**: a finalized utterance arriving while under 3000 ms have
passed since the last forwarded request is dropped: no network call, the
rate-limit clock is not advanced, and the notice shows the remaining
wait in seconds rounded up; at exactly 1000 ms elapsed the notice reads
"Please wait 2 seconds...". -/
theorem overlay_rate_limit_drop (doFetch : String → OverlayFetch) (now : Nat)
    (text : String) (st : OverlayState)
    (h : now - st.lastRequestTime < MIN_REQUEST_INTERVAL) :
    processWithFreeAI doFetch now text st =
      ({ st with aiResponse := "Please wait " ++
          toString ((MIN_REQUEST_INTERVAL - (now - st.lastRequestTime) + 999) / 1000) ++
          " seconds..." }, false) ∧
    (processWithFreeAI doFetch now text st).1.lastRequestTime = st.lastRequestTime ∧
    (MIN_REQUEST_INTERVAL - (now - st.lastRequestTime) ≤
        ((MIN_REQUEST_INTERVAL - (now - st.lastRequestTime) + 999) / 1000) * 1000 ∧
      ((MIN_REQUEST_INTERVAL - (now - st.lastRequestTime) + 999) / 1000) * 1000 <
        MIN_REQUEST_INTERVAL - (now - st.lastRequestTime) + 1000) ∧
    (now - st.lastRequestTime = 1000 →
      (processWithFreeAI doFetch now text st).1.aiResponse =
        "Please wait 2 seconds...") := by
  refine ⟨by simp [processWithFreeAI, h], by simp [processWithFreeAI, h], ?_, ?_⟩
  · constructor <;> · unfold MIN_REQUEST_INTERVAL at *; omega
  · intro h1000
    simp [processWithFreeAI, h1000, MIN_REQUEST_INTERVAL]
    decide

/-- Witness for C9: a five-word utterance 1000 ms after a forwarded
request (clock at 5000, now 6000) is dropped with the two-second
notice and an unchanged clock. -/
theorem overlay_rate_limit_drop_witness :
    processWithFreeAI (fun _ => OverlayFetch.threw) 6000 "hello there my good friend"
        ⟨5000, ""⟩ =
      (⟨5000, "Please wait 2 seconds..."⟩, false) := by
  have h := overlay_rate_limit_drop (fun _ => OverlayFetch.threw) 6000
    "hello there my good friend" ⟨5000, ""⟩ (by decide)
  simpa using h.1

/-- **C10**: a speech-endpoint request with non-empty text whose AI call
returns without throwing is answered 200 with a success body holding a
non-empty response string; an absent or empty AI text is substituted by
the literal fallback. -/
theorem speech_endpoint_success_fallback (bodyT : String)
    (ai : String → AiOutcome) (r : Option String)
    (hne : bodyT ≠ "")
    (hai : ai (speechPrompt bodyT) = AiOutcome.returned r) :
    processSpeechPOST true (Except.ok (some bodyT)) ai =
      ⟨200, SpeechBody.ok (orFallback r "Sorry, I couldn\x27t process that.")⟩ ∧
    orFallback r "Sorry, I couldn\x27t process that." ≠ "" ∧
    ((r = none ∨ r = some "") →
      orFallback r "Sorry, I couldn\x27t process that." =
        "Sorry, I couldn\x27t process that.") := by
  refine ⟨?_, ?_, ?_⟩
  · simp [processSpeechPOST, falsy, hne, hai]
  · match r with
    | none => simp [orFallback]
    | some s =>
      by_cases hs : s = "" <;> simp [orFallback, hs]
  · rintro (rfl | rfl) <;> simp [orFallback]

/-- Witness for C10: with the AI returning an absent text, the endpoint
answers 200 with the literal fallback. -/
theorem speech_endpoint_success_fallback_witness :
    processSpeechPOST true (Except.ok (some "hi there friend"))
        (fun _ => AiOutcome.returned none) =
      ⟨200, SpeechBody.ok "Sorry, I couldn\x27t process that."⟩ := by
  have h := speech_endpoint_success_fallback "hi there friend"
    (fun _ => AiOutcome.returned none) none (by decide) rfl
  simpa [orFallback] using h.1

/-- **C7**: pipeline step 3 annotates every transcript item (the output
pairs up with the input positionally and keeps its fields) with a
display name: the name of a matching user or agent row when the item's
speaker id is found, and the literal "Unknown" when neither set holds a
match; being a total function of its inputs, the step never fails. -/
theorem add_speakers_annotates_every_item (st : Store)
    (transcript : List StreamTranscriptItem) :
    (addSpeakers st transcript).length = transcript.length ∧
    ∀ pr ∈ transcript.zip (addSpeakers st transcript),
      pr.2.speaker_id = pr.1.speaker_id ∧ pr.2.text = pr.1.text ∧
      ((∃ u ∈ st.users, u.id = pr.1.speaker_id ∧ pr.2.user.name = u.name) ∨
       (∃ a ∈ st.agents, a.id = pr.1.speaker_id ∧ pr.2.user.name = a.name) ∨
       ((∀ u ∈ st.users, u.id ≠ pr.1.speaker_id) ∧
        (∀ a ∈ st.agents, a.id ≠ pr.1.speaker_id) ∧
        pr.2.user.name = "Unknown")) := by
  constructor
  · simp [addSpeakers]
  · intro pr hpr
    rw [addSpeakers,
      zip_with_map_self transcript (annotateItem (resolveSpeakers st transcript))] at hpr
    obtain ⟨a, ha, rfl⟩ := List.mem_map.mp hpr
    have hid : a.speaker_id ∈ (transcript.map fun item => item.speaker_id).dedup :=
      List.mem_dedup.mpr (List.mem_map.mpr ⟨a, ha, rfl⟩)
    cases hfind : (resolveSpeakers st transcript).find? fun s => s.id = a.speaker_id with
    | none =>
      refine ⟨by simp [annotateItem, hfind], by simp [annotateItem, hfind],
        Or.inr (Or.inr ⟨?_, ?_, by simp [annotateItem, hfind]⟩)⟩
      · intro u hu hequ
        have hmem : Speaker.mk u.id u.name ∈ resolveSpeakers st transcript := by
          unfold resolveSpeakers
          refine List.mem_append.mpr (Or.inl (List.mem_map.mpr
            ⟨u, List.mem_filter.mpr ⟨hu, ?_⟩, rfl⟩))
          simpa [hequ] using hid
        have := List.find?_eq_none.mp hfind _ hmem
        simp [hequ] at this
      · intro ag hag hequ
        have hmem : Speaker.mk ag.id ag.name ∈ resolveSpeakers st transcript := by
          unfold resolveSpeakers
          refine List.mem_append.mpr (Or.inr (List.mem_map.mpr
            ⟨ag, List.mem_filter.mpr ⟨hag, ?_⟩, rfl⟩))
          simpa [hequ] using hid
        have := List.find?_eq_none.mp hfind _ hmem
        simp [hequ] at this
    | some s =>
      have hsid : s.id = a.speaker_id := by simpa using List.find?_some hfind
      have hmem := List.mem_of_find?_eq_some hfind
      unfold resolveSpeakers at hmem
      simp only [List.mem_append, List.mem_map, List.mem_filter] at hmem
      refine ⟨by simp [annotateItem, hfind], by simp [annotateItem, hfind], ?_⟩
      rcases hmem with ⟨u, ⟨hu, _⟩, rfl⟩ | ⟨ag, ⟨hag, _⟩, rfl⟩
      · exact Or.inl ⟨u, hu, by simpa using hsid, by simp [annotateItem, hfind]⟩
      · exact Or.inr (Or.inl ⟨ag, hag, by simpa using hsid, by simp [annotateItem, hfind]⟩)

/-- Witness for C7: on a one-item transcript whose speaker id matches
the single user row, the annotated item carries that user's name. -/
theorem add_speakers_annotates_every_item_witness :
    (addSpeakers ⟨[], [], [⟨"u1", "Alice"⟩]⟩ [⟨"u1", "hello"⟩]).length = 1 ∧
    ∃ u ∈ ([⟨"u1", "Alice"⟩] : List User), u.id = "u1" ∧
      (⟨"u1", "hello", ⟨"Alice"⟩⟩ : AnnotatedItem).user.name = u.name := by
  have h := add_speakers_annotates_every_item ⟨[], [], [⟨"u1", "Alice"⟩]⟩
    [⟨"u1", "hello"⟩]
  have h2 := h.2 (⟨"u1", "hello"⟩, ⟨"u1", "hello", ⟨"Alice"⟩⟩) (by decide)
  refine ⟨h.1, ?_⟩
  rcases h2.2.2 with hc | hc | hc
  · exact hc
  · simp at hc
  · exact absurd rfl (hc.1 ⟨"u1", "Alice"⟩ (by decide))

/-- **C1**: an authenticated transcription-ready delivery whose meeting
id matches an existing row persists the transcript URL on every row
with that id and sends exactly one "meetings/processing" job carrying
that meeting id and the persisted URL; when no row matches, no job is
sent and the store is unchanged. -/
theorem transcription_ready_enqueues_once (verify : String → String → Bool)
    (parse : String → Option Payload) (now : Nat) (req : Request) (st : Store)
    (p : Payload) (mid : String)
    (hs : (falsy req.signature || falsy req.apiKey) = false)
    (hv : verify req.body (req.signature.getD "") = true)
    (hp : parse req.body = some p)
    (he : p.etype = "call.transcription_ready")
    (hcid : splitCid p.callCid = some mid) :
    ((∃ m ∈ st.meetings, m.id = mid) →
      (POST verify parse now req st).jobs =
          [⟨"meetings/processing", mid, some p.transcriptionUrl⟩] ∧
        (∀ m ∈ (POST verify parse now req st).store.meetings,
          m.id = mid → m.transcriptUrl = some p.transcriptionUrl) ∧
        (POST verify parse now req st).resp = ⟨200, RespBody.ok⟩) ∧
    ((∀ m ∈ st.meetings, m.id ≠ mid) →
      (POST verify parse now req st).jobs = [] ∧
        (POST verify parse now req st).store = st) := by
  simp only [POST, hs, hv, hp, Bool.false_eq_true, if_false, not_true_eq_false,
    dispatch, he, handleTranscriptionReady, hcid, String.reduceEq, reduceIte, if_true]
  constructor
  · rintro ⟨m, hm, hmid⟩
    cases hh : (st.meetings.filter fun m => decide (some m.id = some mid)).head? with
    | none =>
      rw [List.head?_eq_none_iff, List.filter_eq_nil_iff] at hh
      exact absurd (by simp [hmid]) (hh m hm)
    | some m0 =>
      obtain ⟨hm0, hm0id⟩ := head?_filter_some hh
      simp only [decide_eq_true_eq, Option.some.injEq] at hm0id
      rw [List.head?_map, hh]
      refine ⟨by simp [hm0id], ?_, by simp⟩
      intro m' hm' hm'id
      obtain ⟨m1, hm1, rfl⟩ := List.mem_map.mp hm'
      by_cases h1 : some m1.id = some mid
      · simp [h1]
      · rw [if_neg h1] at hm'id ⊢
        exact absurd (by simp [hm'id]) h1
  · intro h
    have hnil : (st.meetings.filter fun m => decide (some m.id = some mid)) = [] :=
      List.filter_eq_nil_iff.mpr fun m hm => by simp [h m hm]
    rw [List.head?_map, hnil]
    refine ⟨rfl, ?_⟩
    have heq : (st.meetings.map fun m =>
        if some m.id = some mid then { m with transcriptUrl := some p.transcriptionUrl }
        else m) = st.meetings :=
      map_ite_id fun m hm => by simp [h m hm]
    rw [heq]
    rfl

/-- Witness for C1 at a concrete delivery: a store holding meeting m1
gets its transcript URL persisted and exactly one job sent, and an
empty store gets no job. -/
theorem transcription_ready_enqueues_once_witness :
    (POST (fun _ _ => true)
        (fun _ => some ⟨"call.transcription_ready", none, "default:m1", "https://x/t.jsonl", ""⟩)
        0 ⟨some "s", some "k", "b"⟩
        ⟨[⟨"m1", Status.processing, "a1", none, none, none, none, none⟩], [], []⟩).jobs =
      [⟨"meetings/processing", "m1", some "https://x/t.jsonl"⟩] ∧
    (POST (fun _ _ => true)
        (fun _ => some ⟨"call.transcription_ready", none, "default:m1", "https://x/t.jsonl", ""⟩)
        0 ⟨some "s", some "k", "b"⟩ ⟨[], [], []⟩).jobs = [] := by
  constructor
  · exact ((transcription_ready_enqueues_once (fun _ _ => true)
      (fun _ => some ⟨"call.transcription_ready", none, "default:m1", "https://x/t.jsonl", ""⟩)
      0 ⟨some "s", some "k", "b"⟩
      ⟨[⟨"m1", Status.processing, "a1", none, none, none, none, none⟩], [], []⟩
      ⟨"call.transcription_ready", none, "default:m1", "https://x/t.jsonl", ""⟩ "m1"
      (by decide) rfl rfl rfl (by decide)).1
      ⟨⟨"m1", Status.processing, "a1", none, none, none, none, none⟩, by decide, rfl⟩).1
  · exact ((transcription_ready_enqueues_once (fun _ _ => true)
      (fun _ => some ⟨"call.transcription_ready", none, "default:m1", "https://x/t.jsonl", ""⟩)
      0 ⟨some "s", some "k", "b"⟩ ⟨[], [], []⟩
      ⟨"call.transcription_ready", none, "default:m1", "https://x/t.jsonl", ""⟩ "m1"
      (by decide) rfl rfl rfl (by decide)).2 (by simp)).1

/-- **C3**: session-started is applied only to an existing meeting whose
status is outside {completed, active, cancelled, processing}: when no
row passes the guard the handler answers not-found and mutates nothing;
when a row passes, every row carrying the delivered meeting id is
active afterwards, and an immediately repeated delivery is rejected by
the guard with the not-found response and changes nothing — the status
is set to active at most once. -/
theorem session_started_guarded_idempotent (verify : String → String → Bool)
    (parse : String → Option Payload) (now1 now2 : Nat) (req : Request) (st : Store)
    (p : Payload) (mid : String)
    (hs : (falsy req.signature || falsy req.apiKey) = false)
    (hv : verify req.body (req.signature.getD "") = true)
    (hp : parse req.body = some p)
    (he : p.etype = "call.session_started")
    (hmid : p.customMeetingId = some mid) (hne : mid ≠ "") :
    ((∀ m ∈ st.meetings, sessionStartedGuard mid m = false) →
      POST verify parse now1 req st =
        ⟨⟨404, RespBody.err "Meeting not found"⟩, st, []⟩) ∧
    ((∃ m ∈ st.meetings, sessionStartedGuard mid m = true) →
      (∀ m ∈ (POST verify parse now1 req st).store.meetings,
          m.id = mid → m.status = Status.active) ∧
      (POST verify parse now2 req (POST verify parse now1 req st).store).resp =
        ⟨404, RespBody.err "Meeting not found"⟩ ∧
      (POST verify parse now2 req (POST verify parse now1 req st).store).store =
        (POST verify parse now1 req st).store) := by
  have hfal : falsy (some mid) = false := by simp [falsy, hne]
  simp only [POST, hs, hv, hp, Bool.false_eq_true, if_false, not_true_eq_false,
    dispatch, he, String.reduceEq, reduceIte, if_true, handleSessionStarted, hmid,
    hfal, Option.getD_some]
  constructor
  · intro h
    have hnil : st.meetings.filter (sessionStartedGuard mid) = [] :=
      List.filter_eq_nil_iff.mpr fun m hm => by simp [h m hm]
    rw [hnil]
    rfl
  · rintro ⟨m, hm, hguard⟩
    cases hh : (st.meetings.filter (sessionStartedGuard mid)).head? with
    | none =>
      rw [List.head?_eq_none_iff, List.filter_eq_nil_iff] at hh
      exact absurd (by simp [hguard]) (hh m hm)
    | some em =>
      obtain ⟨hem, hemg⟩ := head?_filter_some hh
      have hemid : em.id = mid := by
        simp only [sessionStartedGuard, decide_eq_true_eq] at hemg
        exact hemg.1
      have hactive : ∀ m' ∈ st.meetings.map fun m1 =>
          if m1.id = em.id then
            { m1 with status := Status.active, startedAt := some now1 }
          else m1, m'.id = mid → m'.status = Status.active := by
        intro m' hm' hid
        obtain ⟨m1, hm1, rfl⟩ := List.mem_map.mp hm'
        by_cases h1 : m1.id = em.id
        · simp [h1]
        · rw [if_neg h1] at hid ⊢
          exact absurd (hid.trans hemid.symm) h1
      have hnil2 : ((st.meetings.map fun m1 =>
          if m1.id = em.id then
            { m1 with status := Status.active, startedAt := some now1 }
          else m1).filter (sessionStartedGuard mid)) = [] := by
        refine List.filter_eq_nil_iff.mpr ?_
        intro m' hm'
        obtain ⟨m1, hm1, rfl⟩ := List.mem_map.mp hm'
        by_cases h1 : m1.id = em.id
        · simp [h1, sessionStartedGuard]
        · rw [if_neg h1]
          simp only [sessionStartedGuard, decide_eq_true_eq]
          exact fun hc => absurd (hc.1.trans hemid.symm) h1
      cases ha : (st.agents.filter fun a => a.id = em.agentId).head? with
      | none =>
        dsimp only
        rw [ha]
        dsimp only
        refine ⟨hactive, ?_⟩
        rw [hnil2]
        exact ⟨rfl, rfl⟩
      | some ag =>
        dsimp only
        rw [ha]
        dsimp only
        refine ⟨hactive, ?_⟩
        rw [hnil2]
        exact ⟨rfl, rfl⟩

/-- Witness for C3: a store whose only meeting m1 is upcoming; the no-op
branch is exercised on a store whose only meeting is already active. -/
theorem session_started_guarded_idempotent_witness :
    (∀ m ∈ ([⟨"m1", Status.active, "a1", none, none, none, none, none⟩] :
        List Meeting), sessionStartedGuard "m1" m = false) ∧
    POST (fun _ _ => true)
        (fun _ => some ⟨"call.session_started", some "m1", "", "", ""⟩) 3
        ⟨some "s", some "k", "b"⟩
        ⟨[⟨"m1", Status.active, "a1", none, none, none, none, none⟩], [], []⟩ =
      ⟨⟨404, RespBody.err "Meeting not found"⟩,
        ⟨[⟨"m1", Status.active, "a1", none, none, none, none, none⟩], [], []⟩, []⟩ :=
  ⟨by decide,
    (session_started_guarded_idempotent (fun _ _ => true)
      (fun _ => some ⟨"call.session_started", some "m1", "", "", ""⟩) 3 0
      ⟨some "s", some "k", "b"⟩
      ⟨[⟨"m1", Status.active, "a1", none, none, none, none, none⟩], [], []⟩
      ⟨"call.session_started", some "m1", "", "", ""⟩ "m1"
      (by decide) rfl rfl rfl rfl (by decide)).1 (by decide)⟩

/-- Counterexample to C2 as stated: a session-started delivery for an
existing upcoming meeting whose agent id matches no agent row answers
the distinct 404 "Agent not found" error, yet the store HAS been
mutated — the meeting row was set active before the agent lookup. -/
theorem agent_not_found_mutates_store :
    (POST (fun _ _ => true)
        (fun _ => some ⟨"call.session_started", some "m1", "", "", ""⟩) 7
        ⟨some "s", some "k", "b"⟩
        ⟨[⟨"m1", Status.upcoming, "a1", none, none, none, none, none⟩], [], []⟩).resp =
      ⟨404, RespBody.err "Agent not found"⟩ ∧
    (POST (fun _ _ => true)
        (fun _ => some ⟨"call.session_started", some "m1", "", "", ""⟩) 7
        ⟨some "s", some "k", "b"⟩
        ⟨[⟨"m1", Status.upcoming, "a1", none, none, none, none, none⟩], [], []⟩).store ≠
      ⟨[⟨"m1", Status.upcoming, "a1", none, none, none, none, none⟩], [], []⟩ := by
  decide

/-- **C2** (amended): every webhook error response other than
session-started's "Agent not found" leaves the store unchanged and
sends no job; the agent-not-found branch answers its own distinct 404
error but only after the meeting row has been set active; and every 200
response is the uniform acknowledgement. -/
theorem error_paths_leave_store (verify : String → String → Bool)
    (parse : String → Option Payload) (now : Nat) (req : Request) (st : Store) :
    ((POST verify parse now req st).resp.status ≠ 200 ∧
        (POST verify parse now req st).resp.body ≠ RespBody.err "Agent not found" →
      (POST verify parse now req st).store = st ∧
        (POST verify parse now req st).jobs = []) ∧
    ((POST verify parse now req st).resp.status = 200 →
      (POST verify parse now req st).resp = ⟨200, RespBody.ok⟩) := by
  unfold POST
  split
  · exact ⟨fun _ => ⟨rfl, rfl⟩, fun hc => by simp at hc⟩
  · split
    · exact ⟨fun _ => ⟨rfl, rfl⟩, fun hc => by simp at hc⟩
    · split
      · exact ⟨fun _ => ⟨rfl, rfl⟩, fun hc => by simp at hc⟩
      · rename_i p hp
        unfold dispatch
        split
        · unfold handleSessionStarted
          dsimp only
          split
          · exact ⟨fun _ => ⟨rfl, rfl⟩, fun hc => by simp at hc⟩
          · split
            · exact ⟨fun _ => ⟨rfl, rfl⟩, fun hc => by simp at hc⟩
            · split
              · exact ⟨fun hc => absurd rfl hc.2, fun hc => by simp at hc⟩
              · exact ⟨fun hc => absurd rfl hc.1, fun _ => rfl⟩
        · split
          · unfold handleParticipantLeft
            split
            · exact ⟨fun _ => ⟨rfl, rfl⟩, fun hc => by simp at hc⟩
            · exact ⟨fun hc => absurd rfl hc.1, fun _ => rfl⟩
          · split
            · unfold handleSessionEnded
              dsimp only
              split
              · exact ⟨fun _ => ⟨rfl, rfl⟩, fun hc => by simp at hc⟩
              · exact ⟨fun hc => absurd rfl hc.1, fun _ => rfl⟩
            · split
              · unfold handleTranscriptionReady
                dsimp only
                split
                · rename_i hh
                  have hnil : (st.meetings.filter fun m =>
                      decide (some m.id = splitCid p.callCid)) = [] := by
                    rwa [List.head?_eq_none_iff, List.map_eq_nil_iff] at hh
                  have hmap : (st.meetings.map fun m =>
                      if some m.id = splitCid p.callCid then
                        { m with transcriptUrl := some p.transcriptionUrl }
                      else m) = st.meetings :=
                    map_ite_id fun m hm => by
                      simpa using List.filter_eq_nil_iff.mp hnil m hm
                  refine ⟨fun _ => ⟨?_, rfl⟩, fun hc => by simp at hc⟩
                  rw [hmap]
                · exact ⟨fun hc => absurd rfl hc.1, fun _ => rfl⟩
              · split
                · unfold handleRecordingReady
                  exact ⟨fun hc => absurd rfl hc.1, fun _ => rfl⟩
                · exact ⟨fun hc => absurd rfl hc.1, fun _ => rfl⟩

/-- Witness for C2's amended theorem at a concrete error path: an
invalid-JSON delivery leaves a one-meeting store untouched. -/
theorem error_paths_leave_store_witness :
    (POST (fun _ _ => true) (fun _ => none) 0 ⟨some "s", some "k", "b"⟩
        ⟨[⟨"m1", Status.upcoming, "a1", none, none, none, none, none⟩], [], []⟩).store =
      ⟨[⟨"m1", Status.upcoming, "a1", none, none, none, none, none⟩], [], []⟩ ∧
    (POST (fun _ _ => true) (fun _ => none) 0 ⟨some "s", some "k", "b"⟩
        ⟨[⟨"m1", Status.upcoming, "a1", none, none, none, none, none⟩], [], []⟩).jobs =
      [] :=
  (error_paths_leave_store (fun _ _ => true) (fun _ => none) 0
    ⟨some "s", some "k", "b"⟩
    ⟨[⟨"m1", Status.upcoming, "a1", none, none, none, none, none⟩], [], []⟩).1
    (by decide)

/-- Counterexample to C4 as stated: when the AI call returns without
throwing but with an absent text, the pipeline persists the placeholder
"Summary generation failed" as the summary and marks the meeting
completed — no complete successful generation of a summary happened,
yet the terminal status and a placeholder summary are written. -/
theorem empty_generation_marks_completed :
    meetingsProcessing (fun _ => Except.ok "x") (fun _ => Except.ok [])
        (fun _ => AiOutcome.returned none) ⟨"m1", some "u"⟩
        ⟨[⟨"m1", Status.processing, "a1", none, none, none, none, none⟩], [], []⟩ =
      Except.ok ⟨[⟨"m1", Status.completed, "a1", none, none,
        some "Summary generation failed", none, none⟩], [], []⟩ := by
  rfl

/-- **C4** (amended): when the AI call throws, the run fails with the
distinct summarization error and no store is produced — the summary
field is not written and the meeting keeps its pre-pipeline status;
when the AI call returns, the persisted summary is the returned text
with absent or empty text replaced by the placeholder "Summary
generation failed", and the matching rows are marked completed. -/
theorem summary_persistence (fetch : Option String → Except String String)
    (parseJSONL : String → Except String (List StreamTranscriptItem))
    (ai : String → AiOutcome) (d : JobData) (st : Store)
    (r : String) (ts : List StreamTranscriptItem)
    (hf : fetch d.transcriptUrl = Except.ok r)
    (hp : parseJSONL r = Except.ok ts) :
    (∀ e, ai (geminiPrompt (stringifyAnnotated (addSpeakers st ts))) =
        AiOutcome.threw e →
      meetingsProcessing fetch parseJSONL ai d st =
        Except.error "Failed to generate summary with Gemini") ∧
    (∀ t, ai (geminiPrompt (stringifyAnnotated (addSpeakers st ts))) =
        AiOutcome.returned t →
      meetingsProcessing fetch parseJSONL ai d st =
        Except.ok { st with meetings := st.meetings.map fun m =>
          if m.id = d.meetingId then
            { m with summary := some (orFallback t "Summary generation failed"), status := Status.completed }
          else m }) := by
  constructor
  · intro e hai
    simp [meetingsProcessing, hf, hp, summarizeWithGemini, hai, Except.bind,
      Except.map, bind, Functor.map]
  · intro t hai
    simp [meetingsProcessing, hf, hp, summarizeWithGemini, hai, Except.bind,
      Except.map, bind, Functor.map, pure, Except.pure]

/-- Witness for C4's amended theorem: a throwing AI call fails the run
with the summarization error; a successful call with text "S" persists
"S" and marks the meeting completed. -/
theorem summary_persistence_witness :
    meetingsProcessing (fun _ => Except.ok "x") (fun _ => Except.ok [])
        (fun _ => AiOutcome.threw "boom") ⟨"m1", some "u"⟩
        ⟨[⟨"m1", Status.processing, "a1", none, none, none, none, none⟩], [], []⟩ =
      Except.error "Failed to generate summary with Gemini" ∧
    meetingsProcessing (fun _ => Except.ok "x") (fun _ => Except.ok [])
        (fun _ => AiOutcome.returned (some "S")) ⟨"m1", some "u"⟩
        ⟨[⟨"m1", Status.processing, "a1", none, none, none, none, none⟩], [], []⟩ =
      Except.ok ⟨[⟨"m1", Status.completed, "a1", none, none, some "S", none,
        none⟩], [], []⟩ := by
  constructor
  · exact (summary_persistence (fun _ => Except.ok "x") (fun _ => Except.ok [])
      (fun _ => AiOutcome.threw "boom") ⟨"m1", some "u"⟩
      ⟨[⟨"m1", Status.processing, "a1", none, none, none, none, none⟩], [], []⟩
      "x" [] rfl rfl).1 "boom" rfl
  · have h := (summary_persistence (fun _ => Except.ok "x") (fun _ => Except.ok [])
      (fun _ => AiOutcome.returned (some "S")) ⟨"m1", some "u"⟩
      ⟨[⟨"m1", Status.processing, "a1", none, none, none, none, none⟩], [], []⟩
      "x" [] rfl rfl).2 (some "S") rfl
    simpa [orFallback] using h

/-- A status-preserving row update is forward along the state machine. -/
theorem zip_map_status_all (l : List Meeting) (f : Meeting → Meeting)
    (h : ∀ m, (f m).status = m.status) :
    ((l.zip (l.map f)).all fun mm => forwardStep mm.1.status mm.2.status) = true :=
  zip_map_all l f _ fun m _ => by simp [forwardStep, h m]

/-- An untouched meeting list is forward along the state machine. -/
theorem zip_self_forward (l : List Meeting) :
    ((l.zip l).all fun mm => forwardStep mm.1.status mm.2.status) = true :=
  zip_self_all l _ fun m _ => by simp [forwardStep]

/-- The session-ended conditional update moves only active rows, to
processing: a forward step. -/
theorem session_ended_forward (l : List Meeting) (mid : String) (now : Nat) :
    ((l.zip (l.map fun m => if m.id = mid ∧ m.status = Status.active then
        { m with status := Status.processing, endedAt := some now } else m)).all
      fun mm => forwardStep mm.1.status mm.2.status) = true :=
  zip_map_all l _ _ fun m _ => by
    by_cases hc : m.id = mid ∧ m.status = Status.active
    · simp [hc, forwardStep, hc.2]
    · simp [hc, forwardStep]

/-- The session-started update on a store with unique meeting ids moves
exactly the guarded upcoming row, to active: a forward step. -/
theorem session_started_forward (l : List Meeting) (em : Meeting) (now : Nat)
    (hnd : (l.map Meeting.id).Nodup) (hem : em ∈ l)
    (hup : em.status = Status.upcoming) :
    ((l.zip (l.map fun m => if m.id = em.id then
        { m with status := Status.active, startedAt := some now } else m)).all
      fun mm => forwardStep mm.1.status mm.2.status) = true :=
  zip_map_all l _ _ fun m hm => by
    by_cases hc : m.id = em.id
    · have hme : m = em := List.inj_on_of_nodup_map hnd hm hem hc
      subst hme
      simp [forwardStep, hup]
    · simp [hc, forwardStep]

/-- Counterexample to C5 as stated: the pipeline's persist step moves a
cancelled meeting — a terminal status — to completed. -/
theorem pipeline_completes_cancelled_meeting :
    meetingsProcessing (fun _ => Except.ok "x") (fun _ => Except.ok [])
        (fun _ => AiOutcome.returned (some "S")) ⟨"m1", some "u"⟩
        ⟨[⟨"m1", Status.cancelled, "a1", none, none, none, none, none⟩], [], []⟩ =
      Except.ok ⟨[⟨"m1", Status.completed, "a1", none, none, some "S", none,
        none⟩], [], []⟩ := by
  rfl

/-- **C5** (amended): every webhook invocation preserves the meeting
list positionally and — when meeting ids are unique, as the primary key
guarantees — moves each status only along the forward edges upcoming to
active and active to processing, or leaves it unchanged; the pipeline's
persist step instead sets status to completed on every row matching the
triggering meeting id regardless of its current status (so it can move
even a cancelled meeting to completed) and leaves all other rows
untouched. -/
theorem status_forward_and_persist (verify : String → String → Bool)
    (parse : String → Option Payload) (now : Nat) (req : Request) (st : Store)
    (fetch : Option String → Except String String)
    (parseJSONL : String → Except String (List StreamTranscriptItem))
    (ai : String → AiOutcome) (d : JobData) :
    (POST verify parse now req st).store.meetings.length = st.meetings.length ∧
    ((st.meetings.map Meeting.id).Nodup →
      ((st.meetings.zip (POST verify parse now req st).store.meetings).all fun mm =>
        forwardStep mm.1.status mm.2.status) = true) ∧
    (match meetingsProcessing fetch parseJSONL ai d st with
     | Except.ok st2 =>
       st2.meetings.length = st.meetings.length ∧
       ((st.meetings.zip st2.meetings).all fun mm =>
         decide ((mm.2.status = Status.completed ∧ mm.1.id = d.meetingId) ∨
           mm.2 = mm.1)) = true
     | Except.error _ => True) := by
  refine ⟨?_, ?_, ?_⟩
  · unfold POST dispatch handleSessionStarted handleParticipantLeft
      handleSessionEnded handleTranscriptionReady handleRecordingReady
    dsimp only
    repeat' split
    all_goals simp
  · intro hnd
    unfold POST
    split
    · exact zip_self_forward st.meetings
    · split
      · exact zip_self_forward st.meetings
      · split
        · exact zip_self_forward st.meetings
        · rename_i p hp
          unfold dispatch
          split
          · unfold handleSessionStarted
            dsimp only
            split
            · exact zip_self_forward st.meetings
            · split
              · exact zip_self_forward st.meetings
              · rename_i em hem
                have hemg := (head?_filter_some hem).2
                have hup : em.status = Status.upcoming := by
                  simp only [sessionStartedGuard, decide_eq_true_eq] at hemg
                  rcases hemg with ⟨_, h2, h3, h4, h5⟩
                  revert h2 h3 h4 h5
                  cases em.status <;> simp
                have hmm := (head?_filter_some hem).1
                split
                · exact session_started_forward st.meetings em now hnd hmm hup
                · exact session_started_forward st.meetings em now hnd hmm hup
          · split
            · unfold handleParticipantLeft
              split
              · exact zip_self_forward st.meetings
              · exact zip_self_forward st.meetings
            · split
              · unfold handleSessionEnded
                dsimp only
                split
                · exact zip_self_forward st.meetings
                · exact session_ended_forward st.meetings
                    (p.customMeetingId.getD "") now
              · split
                · unfold handleTranscriptionReady
                  dsimp only
                  split
                  · exact zip_map_status_all st.meetings _ fun m => by
                      by_cases hc : some m.id = splitCid p.callCid <;> simp [hc]
                  · exact zip_map_status_all st.meetings _ fun m => by
                      by_cases hc : some m.id = splitCid p.callCid <;> simp [hc]
                · split
                  · unfold handleRecordingReady
                    dsimp only
                    exact zip_map_status_all st.meetings _ fun m => by
                      by_cases hc : some m.id = splitCid p.callCid <;> simp [hc]
                  · exact zip_self_forward st.meetings
  · cases hres : meetingsProcessing fetch parseJSONL ai d st with
    | error e => trivial
    | ok st2 =>
      unfold meetingsProcessing at hres
      cases hfr : fetch d.transcriptUrl with
      | error e => simp [hfr, Except.bind, bind] at hres
      | ok r =>
        cases hpj : parseJSONL r with
        | error e => simp [hfr, hpj, Except.bind, bind] at hres
        | ok ts =>
          cases hai : ai (geminiPrompt (stringifyAnnotated (addSpeakers st ts))) with
          | threw e =>
            simp [hfr, hpj, hai, summarizeWithGemini, Except.bind, bind,
              Functor.map, Except.map] at hres
          | returned t =>
            simp only [hfr, hpj, hai, summarizeWithGemini, Except.bind, bind,
              Functor.map, Except.map, pure, Except.pure, Except.ok.injEq] at hres
            subst hres
            refine ⟨by simp, ?_⟩
            refine zip_map_all st.meetings _ _ fun m _ => ?_
            by_cases hc : m.id = d.meetingId
            · simp [hc]
            · simp [hc]

/-- Witness for C5's amended theorem: a session-ended delivery on a
one-meeting store (unique ids) steps m1 forward. -/
theorem status_forward_and_persist_witness :
    (([⟨"m1", Status.active, "a1", none, none, none, none, none⟩] :
        List Meeting).zip (POST (fun _ _ => true)
          (fun _ => some ⟨"call.session_ended", some "m1", "", "", ""⟩) 9
          ⟨some "s", some "k", "b"⟩
          ⟨[⟨"m1", Status.active, "a1", none, none, none, none, none⟩], [],
            []⟩).store.meetings).all
      (fun mm => forwardStep mm.1.status mm.2.status) = true :=
  (status_forward_and_persist (fun _ _ => true)
    (fun _ => some ⟨"call.session_ended", some "m1", "", "", ""⟩) 9
    ⟨some "s", some "k", "b"⟩
    ⟨[⟨"m1", Status.active, "a1", none, none, none, none, none⟩], [], []⟩
    (fun _ => Except.error "e") (fun _ => Except.error "e")
    (fun _ => AiOutcome.threw "e") ⟨"m1", none⟩).2.1 (by decide)

/-- Counterexample to C8 as stated: a transcription-ready delivery whose
meeting id matches no row is answered with status 400, not the 404 the
claimed map assigns to a not-found meeting; and a session-ended delivery
for a nonexistent meeting id is acknowledged with 200, not 404. -/
theorem transcription_not_found_status_400 :
    (POST (fun _ _ => true)
        (fun _ => some ⟨"call.transcription_ready", none, "default:m1", "u", ""⟩) 0
        ⟨some "s", some "k", "b"⟩ ⟨[], [], []⟩).resp =
      ⟨400, RespBody.err "Meeting not found "⟩ ∧
    (POST (fun _ _ => true)
        (fun _ => some ⟨"call.session_ended", some "m1", "", "", ""⟩) 0
        ⟨some "s", some "k", "b"⟩ ⟨[], [], []⟩).resp = ⟨200, RespBody.ok⟩ := by
  decide

/-- **C8** (amended): for every delivery the endpoint's response status
follows the spec's code map corrected where the code departs from it:
400 for missing signature/key, missing meeting id or malformed JSON,
401 for an invalid signature, 404 exactly when session-started's
meeting or agent lookup comes up empty, 400 when transcription-ready's
update matches no row, and 200 otherwise — session-ended and
recording-ready acknowledge with 200 without checking row existence. -/
theorem webhook_status_matches_map (verify : String → String → Bool)
    (parse : String → Option Payload) (now : Nat) (req : Request) (st : Store) :
    (POST verify parse now req st).resp.status =
      specStatusMap verify parse req st := by
  unfold POST specStatusMap dispatch handleSessionStarted handleParticipantLeft
    handleSessionEnded handleTranscriptionReady handleRecordingReady
  dsimp only
  repeat' split
  all_goals first
    | rfl
    | simp_all [List.head?_eq_none_iff, List.map_eq_nil_iff]

end Mini
